import Mathlib

/-!
Verification development for the urlshortener repository.

Embedding of `api/v1alpha1/zz_generated.deepcopy.go` and of `main.go`, together with the
synchronization core described by the specification (Routing Table, Reconciler), and the
properties checked against them.

Conventions of the embedding:

* a Go pointer is an `Option` (`none` is `nil`); dereferencing `nil` is `Panic.nilDereference`;
* a Go slice is an `Option (List α)`: `none` is the `nil` slice, `some []` an empty non-nil one;
* a method with pointer receiver `in` and pointer argument `out` acts on a `Mem`, the pair of the
  two pointed-to objects, and returns the `Mem` after the call;
* `new(T)` and the elements of `make([]T, n)` are the zero value of `T`, written `default`.
-/

namespace V1alpha1

/-! ## Go runtime -/

/-- Run-time panics of the Go runtime that the embedded code could raise. -/
inductive Panic where
  | nilDereference
  | indexOutOfRange
deriving DecidableEq, Repr

/-- The two objects a `DeepCopyInto` call works on: `*in` and `*out`. -/
structure Mem (α : Type) where
  inp : α
  out : α
deriving DecidableEq, Repr

/-- Dereference of a pointer: `*p`. -/
def deref {α : Type} (p : Option α) : Except Panic α :=
  match p with
  | some v => .ok v
  | none => .error .nilDereference

/-- Indexing `xs[i]` of a slice with its bounds check. -/
def index {α : Type} (xs : List α) (i : Nat) : Except Panic α :=
  match xs[i]? with
  | some v => .ok v
  | none => .error .indexOutOfRange

/-- The loop `for i := range xs` over a slice of length `n`: the body runs for
`i = 0, 1, ..., n-1` in this order, and a panic in the body ends the loop. -/
def forRange {σ : Type} (n : Nat) (body : Nat → σ → Except Panic σ) (s : σ) : Except Panic σ :=
  (List.range n).foldlM (fun st i => body i st) s

/-! ## Types of `api/v1alpha1`

`TypeMeta`, `ObjectMeta` and `ListMeta` are types of k8s.io/apimachinery; `ShortLinkSpec` and
`ShortLinkStatus` are declared next to the generated file. The generated code only assigns them
or hands them to the library's own `DeepCopyInto`, so they are type parameters here:
`TM`, `OM`, `LM`, `SP`, `ST`. -/

/-- The struct `ShortLink`. -/
structure ShortLink (TM OM SP ST : Type) where
  TypeMeta : TM
  ObjectMeta : OM
  Spec : SP
  Status : ST
deriving DecidableEq, Repr

/-- The struct `ShortLinkList`; `Items` is a slice of `ShortLink`. -/
structure ShortLinkList (TM OM LM SP ST : Type) where
  TypeMeta : TM
  ListMeta : LM
  Items : Option (List (ShortLink TM OM SP ST))
deriving DecidableEq, Repr

/-- An interface value of type `runtime.Object`: the `nil` interface, or a dynamic type together
with a pointer of that type (which may itself be a `nil` pointer). -/
inductive RuntimeObject (TM OM LM SP ST : Type) where
  | nil
  | ofShortLink (p : Option (ShortLink TM OM SP ST))
  | ofShortLinkList (p : Option (ShortLinkList TM OM LM SP ST))
deriving DecidableEq, Repr

section DeepCopy

variable {TM OM LM SP ST : Type}

instance instInhabitedShortLink [Inhabited TM] [Inhabited OM] [Inhabited SP] [Inhabited ST] :
    Inhabited (ShortLink TM OM SP ST) :=
  ⟨⟨default, default, default, default⟩⟩

instance instInhabitedShortLinkList [Inhabited TM] [Inhabited LM] :
    Inhabited (ShortLinkList TM OM LM SP ST) :=
  ⟨⟨default, default, none⟩⟩

/-! ## `zz_generated.deepcopy.go` -/

/-- Go method `func (in *ShortLinkSpec) DeepCopyInto(out *ShortLinkSpec)`. -/
def ShortLinkSpec.DeepCopyInto (m : Mem SP) : Mem SP :=
  { m with out := m.inp }                                   -- *out = *in

/-- Go method `func (in *ShortLinkSpec) DeepCopy() *ShortLinkSpec`. -/
def ShortLinkSpec.DeepCopy [Inhabited SP] (inp : Option SP) : Except Panic (Option SP) :=
  if inp.isNone then                                        -- if in == nil
    pure none                                               --   return nil
  else do
    let out : Option SP := some default                     -- out := new(ShortLinkSpec)
    let m := ShortLinkSpec.DeepCopyInto ⟨← deref inp, ← deref out⟩  -- in.DeepCopyInto(out)
    pure (some m.out)                                       -- return out

/-- Go method `func (in *ShortLinkStatus) DeepCopyInto(out *ShortLinkStatus)`. -/
def ShortLinkStatus.DeepCopyInto (m : Mem ST) : Mem ST :=
  { m with out := m.inp }                                   -- *out = *in

/-- Go method `func (in *ShortLinkStatus) DeepCopy() *ShortLinkStatus`. -/
def ShortLinkStatus.DeepCopy [Inhabited ST] (inp : Option ST) : Except Panic (Option ST) :=
  if inp.isNone then
    pure none
  else do
    let out : Option ST := some default
    let m := ShortLinkStatus.DeepCopyInto ⟨← deref inp, ← deref out⟩
    pure (some m.out)

/-- Go method `func (in *ShortLink) DeepCopyInto(out *ShortLink)`.
`objCopy a b` is what the library's `ObjectMeta.DeepCopyInto` leaves in its `out` when the
receiver holds `a` and `out` held `b`. -/
def ShortLink.DeepCopyInto (objCopy : OM → OM → OM) (m : Mem (ShortLink TM OM SP ST)) :
    Mem (ShortLink TM OM SP ST) :=
  let m := { m with out := m.inp }                                          -- *out = *in
  let m := { m with out := { m.out with TypeMeta := m.inp.TypeMeta } }      -- out.TypeMeta = in.TypeMeta
  let m := { m with out := { m.out with
    ObjectMeta := objCopy m.inp.ObjectMeta m.out.ObjectMeta } }             -- in.ObjectMeta.DeepCopyInto(&out.ObjectMeta)
  let m := { m with out := { m.out with Spec := m.inp.Spec } }              -- out.Spec = in.Spec
  let m := { m with out := { m.out with Status := m.inp.Status } }          -- out.Status = in.Status
  m

/-- Go method `func (in *ShortLink) DeepCopy() *ShortLink`. -/
def ShortLink.DeepCopy [Inhabited TM] [Inhabited OM] [Inhabited SP] [Inhabited ST]
    (objCopy : OM → OM → OM) (inp : Option (ShortLink TM OM SP ST)) :
    Except Panic (Option (ShortLink TM OM SP ST)) :=
  if inp.isNone then                                        -- if in == nil
    pure none                                               --   return nil
  else do
    let out : Option (ShortLink TM OM SP ST) := some default   -- out := new(ShortLink)
    let m := ShortLink.DeepCopyInto objCopy ⟨← deref inp, ← deref out⟩  -- in.DeepCopyInto(out)
    pure (some m.out)                                       -- return out

/-- Go method `func (in *ShortLink) DeepCopyObject() runtime.Object`. -/
def ShortLink.DeepCopyObject [Inhabited TM] [Inhabited OM] [Inhabited SP] [Inhabited ST]
    (objCopy : OM → OM → OM) (inp : Option (ShortLink TM OM SP ST)) :
    Except Panic (RuntimeObject TM OM LM SP ST) := do
  let c ← ShortLink.DeepCopy objCopy inp                    -- c := in.DeepCopy()
  if c.isSome then                                          -- c != nil
    pure (.ofShortLink c)                                   --   return c
  else
    pure .nil                                               -- return nil

/-- The copy of `a` that `ShortLink.DeepCopyInto` writes into a zero-valued object, such as an
element of a slice fresh from `make`. -/
def ShortLink.copyOf [Inhabited TM] [Inhabited OM] [Inhabited SP] [Inhabited ST]
    (objCopy : OM → OM → OM) (a : ShortLink TM OM SP ST) : ShortLink TM OM SP ST :=
  (ShortLink.DeepCopyInto objCopy ⟨a, default⟩).out

/-- One pass of the loop body `(*in)[i].DeepCopyInto(&(*out)[i])`. -/
def ShortLinkList.copyItem (objCopy : OM → OM → OM) (inItems : List (ShortLink TM OM SP ST))
    (i : Nat) (outItems : List (ShortLink TM OM SP ST)) :
    Except Panic (List (ShortLink TM OM SP ST)) := do
  let a ← index inItems i
  let b ← index outItems i
  pure (outItems.set i (ShortLink.DeepCopyInto objCopy ⟨a, b⟩).out)

/-- Go method `func (in *ShortLinkList) DeepCopyInto(out *ShortLinkList)`.
`listCopy` stands for the library's `ListMeta.DeepCopyInto` as `objCopy` does for
`ObjectMeta.DeepCopyInto`. -/
def ShortLinkList.DeepCopyInto [Inhabited TM] [Inhabited OM] [Inhabited SP] [Inhabited ST]
    (objCopy : OM → OM → OM) (listCopy : LM → LM → LM)
    (m : Mem (ShortLinkList TM OM LM SP ST)) : Except Panic (Mem (ShortLinkList TM OM LM SP ST)) := do
  let m := { m with out := m.inp }                                          -- *out = *in
  let m := { m with out := { m.out with TypeMeta := m.inp.TypeMeta } }      -- out.TypeMeta = in.TypeMeta
  let m := { m with out := { m.out with
    ListMeta := listCopy m.inp.ListMeta m.out.ListMeta } }                  -- in.ListMeta.DeepCopyInto(&out.ListMeta)
  match m.inp.Items with
  | none => pure m                                                          -- in.Items == nil
  | some inItems =>
    -- *out = make([]ShortLink, len(*in))
    let m := { m with out := { m.out with Items := some (List.replicate inItems.length default) } }
    -- for i := range *in { (*in)[i].DeepCopyInto(&(*out)[i]) }
    let outItems ← forRange inItems.length (ShortLinkList.copyItem objCopy inItems)
      (List.replicate inItems.length default)
    pure { m with out := { m.out with Items := some outItems } }

/-- Go method `func (in *ShortLinkList) DeepCopy() *ShortLinkList`. -/
def ShortLinkList.DeepCopy [Inhabited TM] [Inhabited OM] [Inhabited LM] [Inhabited SP]
    [Inhabited ST] (objCopy : OM → OM → OM) (listCopy : LM → LM → LM)
    (inp : Option (ShortLinkList TM OM LM SP ST)) :
    Except Panic (Option (ShortLinkList TM OM LM SP ST)) :=
  if inp.isNone then
    pure none
  else do
    let out : Option (ShortLinkList TM OM LM SP ST) := some default
    let m ← ShortLinkList.DeepCopyInto objCopy listCopy ⟨← deref inp, ← deref out⟩
    pure (some m.out)

/-- Go method `func (in *ShortLinkList) DeepCopyObject() runtime.Object`. -/
def ShortLinkList.DeepCopyObject [Inhabited TM] [Inhabited OM] [Inhabited LM] [Inhabited SP]
    [Inhabited ST] (objCopy : OM → OM → OM) (listCopy : LM → LM → LM)
    (inp : Option (ShortLinkList TM OM LM SP ST)) :
    Except Panic (RuntimeObject TM OM LM SP ST) := do
  let c ← ShortLinkList.DeepCopy objCopy listCopy inp
  if c.isSome then
    pure (.ofShortLinkList c)
  else
    pure .nil

end DeepCopy

end V1alpha1

namespace Main

/-! ## `main.go`: shutdown

After start-up the process has the main goroutine, which sits in `handleShutdown`, and the
goroutine of `mgr.Start(ctrl.SetupSignalHandler())`. What happens to it from then on is a
timeline of events in the order of time; the process is a state machine over the timeline. -/

/-- The signals the embedding distinguishes. -/
inductive Signal where
  | SIGHUP
  | SIGINT
  | SIGQUIT
  | SIGKILL
  | SIGUSR1
  | SIGUSR2
  | SIGTERM
  | SIGCHLD
  | SIGWINCH
deriving DecidableEq, Repr

/-- What the Go runtime does with a signal that no channel was notified for (package
`os/signal`): SIGHUP, SIGINT and SIGTERM make the program exit, SIGQUIT makes it exit with a
stack dump, SIGKILL cannot be caught; the other signals are caught and no action is taken. -/
def Signal.endsProcess : Signal → Bool
  | .SIGHUP => true
  | .SIGINT => true
  | .SIGQUIT => true
  | .SIGKILL => true
  | .SIGTERM => true
  | .SIGUSR1 => false
  | .SIGUSR2 => false
  | .SIGCHLD => false
  | .SIGWINCH => false

/-- The observable steps of the process during shutdown. -/
inductive Effect where
  /-- The call `signal.Notify(quit, sigs...)`. -/
  | signalNotify (sigs : List Signal)
  /-- The receive `<-quit` returning. -/
  | received (s : Signal)
  /-- A call of `Info(msg)` on a logger. -/
  | logInfo (msg : String)
  /-- The call `context.WithTimeout(context.Background(), d)`, `d` in nanoseconds. -/
  | withTimeout (d : Nat)
  /-- The call `srv.Shutdown(ctx)` with the timeout of `ctx` in nanoseconds. -/
  | serverShutdown (timeout : Nat)
  /-- A call of `Error(err, msg)` on a logger. -/
  | logError (err : String) (msg : String)
  /-- The deferred `cancel()` of `handleShutdown`. -/
  | cancel
  /-- The call `os.Exit(code)`. -/
  | exit (code : Nat)
  /-- The `cancel()` of the context that `ctrl.SetupSignalHandler()` gave to `mgr.Start`. -/
  | managerCancel
  /-- The deferred call `tp.Shutdown(context.Background())` of `main`. -/
  | tracerShutdown
deriving DecidableEq, Repr

/-- How far a process has come: it is still running, it has ended with an exit status, or a
signal has ended it. -/
inductive Outcome where
  | running
  | exited (code : Nat)
  | killed (s : Signal)
deriving DecidableEq, Repr

/-- A run of the process: the steps taken and how far it has come. -/
structure Run where
  trace : List Effect
  outcome : Outcome
deriving DecidableEq, Repr

/-- Constant `time.Nanosecond`. -/
def Nanosecond : Nat := 1
/-- Constant `time.Microsecond`. -/
def Microsecond : Nat := 1000 * Nanosecond
/-- Constant `time.Millisecond`. -/
def Millisecond : Nat := 1000 * Microsecond
/-- Constant `time.Second`. -/
def Second : Nat := 1000 * Millisecond

/-- Signals relayed to the channel `quit` by `signal.Notify(quit, SIGINT, SIGTERM)`; they are
also the signals `ctrl.SetupSignalHandler()` asks for (`os.Interrupt`, `syscall.SIGTERM`). -/
def notified : List Signal := [Signal.SIGINT, Signal.SIGTERM]

/-- What happens to the process, in the order of time. -/
inductive Event where
  /-- A signal reaches the process. -/
  | signal (s : Signal)
  /-- The call `srv.Shutdown(ctx)` returns in `handleShutdown`; `none` is the `nil` error. -/
  | serverShutdownReturns (err : Option String)
  /-- The deferred call `tp.Shutdown(...)` returns in `main`. -/
  | tracerShutdownReturns (err : Option String)
  /-- The call `mgr.Start(ctx)` returns in its goroutine. -/
  | managerReturns (err : Option String)
deriving DecidableEq, Repr

/-- Where the main goroutine is: blocked in `<-quit`, inside `srv.Shutdown(ctx)`, or inside the
deferred `tp.Shutdown(...)`. -/
inductive Phase where
  | atQuit
  | inServerShutdown
  | inTracerShutdown
deriving DecidableEq, Repr

/-- The state of the process: the phase of the main goroutine, the number of signals the
goroutine of `ctrl.SetupSignalHandler()` has taken from its channel, and the steps so far. -/
structure Proc where
  phase : Phase
  handlerSignals : Nat
  trace : List Effect
deriving DecidableEq, Repr

/-- Go function `handleShutdown`, from the return of `<-quit` with the signal `s` to the call
of `srv.Shutdown(ctx)`. -/
def handleShutdown.begin (s : Signal) : List Effect :=
  [ Effect.received s,                                -- <-quit
    Effect.logInfo "Shutting down server...",         -- shutdownLog.Info(...)
    Effect.withTimeout (5 * Second),                  -- ctx, cancel := context.WithTimeout(..., 5*time.Second)
    Effect.serverShutdown (5 * Second) ]              -- srv.Shutdown(ctx)

/-- Go function `handleShutdown`, from the return of `srv.Shutdown(ctx)` with `err` on: the
steps taken, and the exit status when the function ends the process instead of returning. -/
def handleShutdown.finish (err : Option String) : List Effect × Option Nat :=
  match err with
  | some e =>
    -- shutdownLog.Error(err, "Server forced to shutdown"); os.Exit(1): no deferred call runs
    ([Effect.logError e "Server forced to shutdown", Effect.exit 1], some 1)
  | none =>
    -- the function returns: defer cancel()
    ([Effect.cancel], none)

/-- The process when `handleShutdown` has called `signal.Notify` and blocks in `<-quit`, the
manager runs under the context of `ctrl.SetupSignalHandler()`, which has made its own
`signal.Notify` call, and no signal has arrived yet. -/
def Proc.start : Proc :=
  ⟨.atQuit, 0, [Effect.signalNotify notified]⟩

/-- The result of one event: the process goes on in a new state, or it has ended. -/
inductive StepResult where
  | goesOn (p : Proc)
  | ended (r : Run)
deriving DecidableEq, Repr

/-- One event of the timeline.

* A signal that `signal.Notify` was called for goes to both channels. The goroutine of
  `ctrl.SetupSignalHandler()` (`<-c; cancel(); <-c; os.Exit(1)`) cancels the context of the
  manager on the first one and ends the process with status 1 on the second one. The main
  goroutine, when it waits in `<-quit`, goes on in `handleShutdown` up to `srv.Shutdown(ctx)`.
* Another signal ends the process or does nothing, as `Signal.endsProcess` says.
* When `srv.Shutdown(ctx)` returns, `handleShutdown` ends the process, or it returns and `main`
  goes on: `shutdownLog.Info("Server exiting")`, then the deferred `tp.Shutdown(...)`.
* When `tp.Shutdown(...)` returns, `main` returns and the process ends with status 0.
* When `mgr.Start(ctx)` returns an error its goroutine calls `os.Exit(1)`; when it returns
  `nil` the goroutine ends. A timeline holds this event at most once. -/
def step (p : Proc) : Event → StepResult
  | .signal s =>
    if s ∈ notified then
      if p.handlerSignals = 0 then
        let p := { p with handlerSignals := 1, trace := p.trace ++ [Effect.managerCancel] }
        match p.phase with
        | .atQuit =>
          .goesOn { p with phase := .inServerShutdown, trace := p.trace ++ handleShutdown.begin s }
        | _ => .goesOn p
      else
        .ended ⟨p.trace ++ [Effect.exit 1], .exited 1⟩
    else if s.endsProcess then
      .ended ⟨p.trace, .killed s⟩
    else
      .goesOn p
  | .serverShutdownReturns err =>
    match p.phase with
    | .inServerShutdown =>
      match handleShutdown.finish err with
      | (effects, some code) => .ended ⟨p.trace ++ effects, .exited code⟩
      | (effects, none) =>
        .goesOn { p with
          phase := .inTracerShutdown
          trace := p.trace ++ effects ++ [Effect.logInfo "Server exiting", Effect.tracerShutdown] }
    | _ => .goesOn p
  | .tracerShutdownReturns err =>
    match p.phase with
    | .inTracerShutdown =>
      match err with
      | some e =>
        .ended ⟨p.trace ++ [Effect.logError e "Error shutting down tracer provider: %v"], .exited 0⟩
      | none => .ended ⟨p.trace, .exited 0⟩
    | _ => .goesOn p
  | .managerReturns err =>
    match err with
    | some e =>
      .ended ⟨p.trace ++ [Effect.logError e "problem running urlshortener", Effect.exit 1], .exited 1⟩
    | none => .goesOn p

/-- The run of the process from the state `p` over a timeline. -/
def runFrom (p : Proc) : List Event → Run
  | [] => ⟨p.trace, .running⟩
  | e :: es =>
    match step p e with
    | .goesOn q => runFrom q es
    | .ended r => r

/-- The run of the process from the moment `handleShutdown` waits for a signal. -/
def runMain (timeline : List Event) : Run :=
  runFrom Proc.start timeline

/-- An event that leaves the process as it is: a signal that was not asked for and is not one
that ends the process, or the manager returning `nil`. -/
def Event.quiet : Event → Bool
  | .signal s => !decide (s ∈ notified) && !s.endsProcess
  | .managerReturns none => true
  | _ => false

/-! ## `main.go`: health and readiness probes -/

/-- Modelled from the spec: the cold-start gate. The specification speaks of a rebuild of the
Routing Table from a `List` snapshot at process start; no source file implements it, and the
state of the process is given the one flag the readiness claim speaks of. -/
structure ProcState where
  coldStartRebuildDone : Bool
deriving DecidableEq, Repr

/-- An HTTP request to a probe endpoint. -/
structure Request where
  path : String
deriving DecidableEq, Repr

/-- The type `healthz.Checker` of controller-runtime, `func(req *http.Request) error`; a Go
closure may read the state of the process. `none` is the `nil` error. -/
abbrev Checker := ProcState → Request → Option String

/-- The checker `healthz.Ping` of controller-runtime: `func(_ *http.Request) error` with body
`return nil`. -/
def healthz.Ping : Checker := fun _ _ => none

/-- The part of the controller-runtime manager that serves the probes: the address of the
probe endpoint (`HealthProbeBindAddress`), whether `Start` has been called, and the named
checks registered for `/healthz` and for `/readyz`. -/
structure Manager where
  healthProbeBindAddress : String
  started : Bool
  healthzChecks : List (String × Checker)
  readyzChecks : List (String × Checker)

/-- The manager as `ctrl.NewManager` returns it for the option
`HealthProbeBindAddress: probeAddr`: not started, no check registered. -/
def NewManager (probeAddr : String) : Manager := ⟨probeAddr, false, [], []⟩

/-- Assignment `checks[name] = check` on a Go map kept as an association list. -/
def setCheck (checks : List (String × Checker)) (name : String) (check : Checker) :
    List (String × Checker) :=
  (name, check) :: checks.filter (fun c => c.1 != name)

/-- The method `mgr.AddHealthzCheck(name, check)`. -/
def Manager.AddHealthzCheck (mgr : Manager) (name : String) (check : Checker) :
    Except String Manager :=
  if mgr.started then
    .error "unable to add new checker because healthz endpoint has already been created"
  else
    .ok { mgr with healthzChecks := setCheck mgr.healthzChecks name check }

/-- The method `mgr.AddReadyzCheck(name, check)`. -/
def Manager.AddReadyzCheck (mgr : Manager) (name : String) (check : Checker) :
    Except String Manager :=
  if mgr.started then
    .error "unable to add new checker because healthz endpoint has already been created"
  else
    .ok { mgr with readyzChecks := setCheck mgr.readyzChecks name check }

/-- The method `mgr.Start(ctx)` as far as the probes go: from then on the manager is started
and serves its probe endpoint. -/
def Manager.Start (mgr : Manager) : Except String Manager :=
  if mgr.started then
    .error "manager already started"
  else
    .ok { mgr with started := true }

/-- The lines of `main` that register the probes; an error ends the process with
`os.Exit(1)`. -/
def setupProbes (mgr : Manager) : Except Outcome Manager :=
  -- if err := mgr.AddHealthzCheck("healthz", healthz.Ping); err != nil { ...; os.Exit(1) }
  match mgr.AddHealthzCheck "healthz" healthz.Ping with
  | .error _ => .error (.exited 1)
  | .ok mgr =>
    -- if err := mgr.AddReadyzCheck("readyz", healthz.Ping); err != nil { ...; os.Exit(1) }
    match mgr.AddReadyzCheck "readyz" healthz.Ping with
    | .error _ => .error (.exited 1)
    | .ok mgr => .ok mgr

/-- The lines of `main` that bring the probes up: the registration, then `mgr.Start(...)` in
its goroutine. -/
def startProbes (probeAddr : String) : Except Outcome Manager :=
  match setupProbes (NewManager probeAddr) with
  | .error o => .error o
  | .ok mgr =>
    -- if err := mgr.Start(ctrl.SetupSignalHandler()); err != nil { ...; os.Exit(1) }
    match mgr.Start with
    | .error _ => .error (.exited 1)
    | .ok mgr => .ok mgr

/-- Whether the manager answers on its probe endpoint: it has been started, and the probe
address is not one of the two values that switch the endpoint off. -/
def Manager.servesProbes (mgr : Manager) : Bool :=
  mgr.started && mgr.healthProbeBindAddress != "" && mgr.healthProbeBindAddress != "0"

/-- HTTP status of the aggregated probe handler of controller-runtime over the registered
checks: 200 when every check returns `nil`, 500 when one fails. -/
def probeStatus (checks : List (String × Checker)) (st : ProcState) (req : Request) : Nat :=
  if checks.all (fun c => (c.2 st req).isNone) then 200 else 500

/-- The answer to `GET /readyz`: none while the manager does not serve its probe endpoint;
status 404 when no readyz check was ever added, so that the handler is not mounted; else the
status of the handler over the registered checks. -/
def Manager.readyz (mgr : Manager) (st : ProcState) (req : Request) : Option Nat :=
  if !mgr.servesProbes then none
  else if mgr.readyzChecks.isEmpty then some 404
  else some (probeStatus mgr.readyzChecks st req)

/-- Readiness as the probe reports it: an answer with HTTP status 200. -/
def Manager.reportsReady (mgr : Manager) (st : ProcState) (req : Request) : Bool :=
  mgr.readyz st req == some 200

/-! ## `main.go`: construction of the components -/

end Main

namespace Core

/-! ## The synchronization core of the specification

The packages that hold the reconciler (`controllers`), the HTTP controller (`pkg/controller`)
and the ShortLink client (`pkg/client`) are not among the source files, and `main` builds no
Routing Table. The definitions of this section follow sections 3 and 4 of the specification. -/

/-- Modelled from the spec: the `condition` of a ShortLinkStatus, `{Pending, Ready, Invalid}`
(section 3); the type declarations of `api/v1alpha1` are missing. -/
inductive Condition where
  | Pending
  | Ready
  | Invalid
deriving DecidableEq, Repr

/-- Modelled from the spec: ShortLinkSpec, the desired state `code`, `target` (section 3); the
type declarations of `api/v1alpha1` are missing. -/
structure ShortLinkSpec where
  code : String
  target : String
deriving DecidableEq, Repr

/-- Modelled from the spec: ShortLinkStatus, the observed state (sections 3 and 6); the type
declarations of `api/v1alpha1` are missing. -/
structure ShortLinkStatus where
  resolvedTarget : String
  lastReconciledGeneration : Nat
  condition : Condition
  reason : String
deriving DecidableEq, Repr

/-- Modelled from the spec: the ShortLink object as the Reconciler fetches it: its resource
generation, its Spec and its Status (section 3); the type declarations of `api/v1alpha1` are
missing. -/
structure ShortLink where
  generation : Nat
  spec : ShortLinkSpec
  status : ShortLinkStatus
deriving DecidableEq, Repr

/-- Modelled from the spec: RouteEntry, the target of a code plus the monotonic
version/generation used to detect staleness (section 3); the Routing Table is missing from the
source. -/
structure RouteEntry where
  target : String
  version : Nat
deriving DecidableEq, Repr

/-- Modelled from the spec: the Routing Table, a mapping from short code to RouteEntry
(section 4.3); it is missing from the source. -/
abbrev RoutingTable := String → Option RouteEntry

/-- Modelled from the spec: the initial state of the Routing Table, empty (section 4.3). -/
def RoutingTable.empty : RoutingTable := fun _ => none

/-- Modelled from the spec: `Put(code, target, version)` of the Routing Table (section 4.3),
missing from the source. A Put with an older version than the currently stored entry is
rejected; any other Put stores the entry, overwriting the one stored. -/
def RoutingTable.Put (tbl : RoutingTable) (code target : String) (version : Nat) :
    RoutingTable :=
  match tbl code with
  | some stored =>
    if version < stored.version then tbl
    else fun c => if c = code then some ⟨target, version⟩ else tbl c
  | none => fun c => if c = code then some ⟨target, version⟩ else tbl c

/-- Modelled from the spec: `Remove(code)` of the Routing Table (section 4.3), missing from the
source. -/
def RoutingTable.Remove (tbl : RoutingTable) (code : String) : RoutingTable :=
  fun c => if c = code then none else tbl c

/-- Modelled from the spec: `Lookup(code) → (target, found)` of the Routing Table
(section 4.3), missing from the source. A miss is `("", false)`. -/
def RoutingTable.Lookup (tbl : RoutingTable) (code : String) : String × Bool :=
  match tbl code with
  | some e => (e.target, true)
  | none => ("", false)

/-- Modelled from the spec: the response of the Redirect Resolver, a redirect to a target or
not-found (section 4.4); the HTTP controller is missing from the source. -/
inductive Response where
  | redirect (status : Nat) (location : String)
  | notFound
deriving DecidableEq, Repr

/-- Modelled from the spec: the HTTP status of a response (section 6): the status of the
redirect on a hit, `404` on a miss. -/
def Response.statusCode : Response → Nat
  | .redirect status _ => status
  | .notFound => 404

/-- Modelled from the spec: the Redirect Resolver (section 4.4), missing from the source:
`Lookup`; on a hit an HTTP redirect to the target, by default temporary (302), on a miss
not-found (404). -/
def resolve (tbl : RoutingTable) (code : String) : Response :=
  match tbl.Lookup code with
  | (target, true) => .redirect 302 target
  | (_, false) => .notFound

/-- Modelled from the spec: the validation of a target by the Reconciler, missing from the
source: `none` when the Spec passes, the human-readable reason when it fails. The specification
names the criteria (well-formed absolute URL, scheme in an allow-list, no loop back to the own
code) without fixing them, so the Reconciler takes the validation as an argument. -/
abbrev Validation := ShortLinkSpec → Option String

/-- Modelled from the spec: one reconcile pass over a fetched ShortLink (section 4.2), missing
from the source. It returns the Routing Table after the pass and the object with the Status the
pass goes on to hand to `UpdateStatus`.

* Validation passes: set `resolvedTarget = target`, `lastReconciledGeneration = generation`,
  `condition = Ready`, publish the RouteEntry in the Routing Table. The table is written
  through its contract, a `Put` at the version of the object's generation, so that the version
  check of section 4.3 guards the pass (section 5).
* Validation fails: remove any RouteEntry for `code`, set `condition = Invalid`, record the
  reason. -/
def reconcile (validate : Validation) (tbl : RoutingTable) (obj : ShortLink) :
    RoutingTable × ShortLink :=
  match validate obj.spec with
  | none =>
    let status : ShortLinkStatus :=
      { obj.status with
        resolvedTarget := obj.spec.target
        lastReconciledGeneration := obj.generation
        condition := .Ready }
    (tbl.Put obj.spec.code obj.spec.target obj.generation, { obj with status := status })
  | some reason =>
    let tbl := tbl.Remove obj.spec.code
    let status : ShortLinkStatus :=
      { obj.status with condition := .Invalid, reason := reason }
    (tbl, { obj with status := status })

/-- Modelled from the spec: one validation in the sense of section 4.2, for the schemes of
`allowed`: the target has to be `scheme://rest` with `scheme` in the allow-list and `rest` not
empty, and must not be the own code. It serves as the validation of the concrete runs. -/
def allowListValidation (allowed : List String) : Validation := fun spec =>
  if spec.target = spec.code then
    some "target loops back to the code"
  else if allowed.any (fun scheme =>
      (scheme ++ "://").toList.isPrefixOf spec.target.toList &&
        decide ((scheme ++ "://").length < spec.target.length)) then
    none
  else
    some "target is not an absolute URL with an allowed scheme"

/-! ## The system around the Routing Table -/

end Core

/-! ## Sample objects -/

namespace V1alpha1

/-- A ShortLink over simple metadata types: the TypeMeta is the kind, the ObjectMeta a name and
a generation, the Spec a code and a target, the Status a counter. -/
def sampleShortLink : ShortLink String (String × Nat) (String × String) Nat :=
  ⟨"ShortLink", ("go", 3), ("go", "https://go.dev"), 1⟩

/-- A ShortLinkList of two items; its ListMeta is a resource version. -/
def sampleShortLinkList : ShortLinkList String (String × Nat) String (String × String) Nat :=
  ⟨"ShortLinkList", "42",
    some [sampleShortLink, ⟨"ShortLink", ("doc", 1), ("doc", "https://example.org/doc"), 0⟩]⟩

end V1alpha1

/-! # Properties -/

namespace V1alpha1

section DeepCopyLemmas

variable {TM OM LM SP ST : Type}

theorem index_of_lt {α : Type} (xs : List α) (i : Nat) (h : i < xs.length) :
    index xs i = .ok xs[i] := by
  simp [index, List.getElem?_eq_getElem h]

theorem forRange_succ {σ : Type} (n : Nat) (body : Nat → σ → Except Panic σ) (s : σ) :
    forRange (n + 1) body s = (forRange n body s >>= body n) := by
  simp [forRange, List.range_succ, List.foldlM_append]

theorem getElem?_append_cons_length {α : Type} (pre : List α) (d : α) (rest : List α) :
    (pre ++ d :: rest)[pre.length]? = some d := by
  induction pre with
  | nil => simp
  | cons x xs ih => simpa using ih

theorem set_append_cons_length {α : Type} (pre : List α) (d v : α) (rest : List α) :
    (pre ++ d :: rest).set pre.length v = pre ++ v :: rest := by
  induction pre with
  | nil => simp
  | cons x xs ih => simp [ih]

theorem ShortLink_DeepCopyInto_eq (objCopy : OM → OM → OM) (a b : ShortLink TM OM SP ST) :
    ShortLink.DeepCopyInto objCopy ⟨a, b⟩ =
      ⟨a, ⟨a.TypeMeta, objCopy a.ObjectMeta a.ObjectMeta, a.Spec, a.Status⟩⟩ := rfl

theorem ShortLink_DeepCopy_some [Inhabited TM] [Inhabited OM] [Inhabited SP] [Inhabited ST]
    (objCopy : OM → OM → OM) (a : ShortLink TM OM SP ST) :
    ShortLink.DeepCopy objCopy (some a) = .ok (some (ShortLink.copyOf objCopy a)) := rfl

/-- After `k` passes of the loop the first `k` elements of the new slice are copies and the
others are still zero values. -/
theorem copyLoop_upto [Inhabited TM] [Inhabited OM] [Inhabited SP] [Inhabited ST]
    (objCopy : OM → OM → OM) (items : List (ShortLink TM OM SP ST)) :
    ∀ k, k ≤ items.length →
      forRange k (ShortLinkList.copyItem objCopy items) (List.replicate items.length default) =
        .ok ((items.take k).map (ShortLink.copyOf objCopy) ++
          List.replicate (items.length - k) default) := by
  intro k
  induction k with
  | zero => intro _; simp [forRange]; rfl
  | succ k ih =>
    intro hk
    have hk' : k < items.length := hk
    rw [forRange_succ, ih (Nat.le_of_lt hk')]
    show ShortLinkList.copyItem objCopy items k _ = _
    have hlen : ((items.take k).map (ShortLink.copyOf objCopy)).length = k := by
      simp [List.length_take, Nat.min_eq_left (Nat.le_of_lt hk')]
    have hrep : List.replicate (items.length - k) (default : ShortLink TM OM SP ST) =
        default :: List.replicate (items.length - (k + 1)) default := by
      have : items.length - k = (items.length - (k + 1)) + 1 := by omega
      rw [this, List.replicate_succ]
    have hget := getElem?_append_cons_length ((items.take k).map (ShortLink.copyOf objCopy))
      (default : ShortLink TM OM SP ST) (List.replicate (items.length - (k + 1)) default)
    have hset := set_append_cons_length ((items.take k).map (ShortLink.copyOf objCopy))
      (default : ShortLink TM OM SP ST) (ShortLink.copyOf objCopy items[k])
      (List.replicate (items.length - (k + 1)) default)
    rw [hlen] at hget hset
    unfold ShortLinkList.copyItem
    rw [index_of_lt items k hk', hrep]
    simp only [index, hget]
    show Except.ok _ = _
    congr 1
    rw [List.take_succ, List.getElem?_eq_getElem hk']
    simp only [Option.toList, List.map_append, List.map_cons, List.map_nil, List.append_assoc,
      List.cons_append, List.nil_append]
    exact hset

theorem copyLoop_total [Inhabited TM] [Inhabited OM] [Inhabited SP] [Inhabited ST]
    (objCopy : OM → OM → OM) (items : List (ShortLink TM OM SP ST)) :
    forRange items.length (ShortLinkList.copyItem objCopy items)
        (List.replicate items.length default) = .ok (items.map (ShortLink.copyOf objCopy)) := by
  rw [copyLoop_upto objCopy items items.length (Nat.le_refl _)]
  simp

theorem ShortLinkList_DeepCopyInto_eq [Inhabited TM] [Inhabited OM] [Inhabited SP] [Inhabited ST]
    (objCopy : OM → OM → OM) (listCopy : LM → LM → LM)
    (inp out : ShortLinkList TM OM LM SP ST) :
    ShortLinkList.DeepCopyInto objCopy listCopy ⟨inp, out⟩ =
      .ok ⟨inp, ⟨inp.TypeMeta, listCopy inp.ListMeta inp.ListMeta,
        inp.Items.map (fun items => items.map (ShortLink.copyOf objCopy))⟩⟩ := by
  unfold ShortLinkList.DeepCopyInto
  cases h : inp.Items with
  | none => simp [h]; rfl
  | some items =>
    simp only [h]
    rw [copyLoop_total]
    rfl

theorem ShortLinkList_DeepCopy_some [Inhabited TM] [Inhabited OM] [Inhabited LM] [Inhabited SP]
    [Inhabited ST] (objCopy : OM → OM → OM) (listCopy : LM → LM → LM)
    (a : ShortLinkList TM OM LM SP ST) :
    ShortLinkList.DeepCopy objCopy listCopy (some a) =
      .ok (some ⟨a.TypeMeta, listCopy a.ListMeta a.ListMeta,
        a.Items.map (fun items => items.map (ShortLink.copyOf objCopy))⟩) := by
  unfold ShortLinkList.DeepCopy
  simp only [Option.isNone_some, Bool.false_eq_true, if_false, deref]
  show (ShortLinkList.DeepCopyInto objCopy listCopy ⟨a, default⟩ >>= _) = _
  rw [ShortLinkList_DeepCopyInto_eq]
  rfl

end DeepCopyLemmas

/-- C7. For every ShortLinkList `inp` and every prior content `out`,
`ShortLinkList.DeepCopyInto` returns (it does not panic) and leaves in `out`: the TypeMeta of
`inp`; as ListMeta what the library's `ListMeta.DeepCopyInto` writes for the ListMeta of `inp`;
a `nil` Items when the Items of `inp` are `nil`; and otherwise a non-nil slice of the same
length, whose element at every index `i` is the copy `ShortLink.DeepCopy` returns for the
element of `inp` at `i`. Nothing of the prior content of `out` enters the result. -/
theorem ShortLinkList_DeepCopyInto_copies {TM OM LM SP ST : Type}
    [Inhabited TM] [Inhabited OM] [Inhabited SP] [Inhabited ST]
    (objCopy : OM → OM → OM) (listCopy : LM → LM → LM)
    (inp out : ShortLinkList TM OM LM SP ST) :
    ∃ m, ShortLinkList.DeepCopyInto objCopy listCopy ⟨inp, out⟩ = .ok m ∧
      m.out.TypeMeta = inp.TypeMeta ∧
      m.out.ListMeta = listCopy inp.ListMeta inp.ListMeta ∧
      (inp.Items = none → m.out.Items = none) ∧
      (∀ items, inp.Items = some items →
        ∃ outItems, m.out.Items = some outItems ∧
          outItems.length = items.length ∧
          ∀ (i : Nat) (a : ShortLink TM OM SP ST), items[i]? = some a →
            ∃ c, outItems[i]? = some c ∧ ShortLink.DeepCopy objCopy (some a) = .ok (some c)) := by
  refine ⟨_, ShortLinkList_DeepCopyInto_eq objCopy listCopy inp out, rfl, rfl, ?_, ?_⟩
  · intro h
    simp [h]
  · intro items h
    refine ⟨items.map (ShortLink.copyOf objCopy), by simp [h], by simp, ?_⟩
    intro i a hi
    exact ⟨ShortLink.copyOf objCopy a, by simp [hi], ShortLink_DeepCopy_some objCopy a⟩

/-- C8. For every ShortLink `inp` and every prior content `out`, `ShortLink.DeepCopyInto`
leaves in `out` the TypeMeta, Spec and Status of `inp` (the Spec and Status that their own
`DeepCopyInto` would write) and, as ObjectMeta, what the library's `ObjectMeta.DeepCopyInto`
writes for the ObjectMeta of `inp`; the result is the same for every prior content of `out`;
`inp` is unchanged; and `DeepCopy` of a non-nil ShortLink returns a non-nil object holding
that copy, equal to the receiver when the library's copy of its ObjectMeta equals the
ObjectMeta. -/
theorem ShortLink_DeepCopyInto_copies {TM OM SP ST : Type}
    [Inhabited TM] [Inhabited OM] [Inhabited SP] [Inhabited ST]
    (objCopy : OM → OM → OM) (inp out : ShortLink TM OM SP ST) :
    (ShortLink.DeepCopyInto objCopy ⟨inp, out⟩).out.TypeMeta = inp.TypeMeta ∧
    (ShortLink.DeepCopyInto objCopy ⟨inp, out⟩).out.Spec = inp.Spec ∧
    (ShortLink.DeepCopyInto objCopy ⟨inp, out⟩).out.Status = inp.Status ∧
    (ShortLink.DeepCopyInto objCopy ⟨inp, out⟩).out.Spec =
      (ShortLinkSpec.DeepCopyInto ⟨inp.Spec, out.Spec⟩).out ∧
    (ShortLink.DeepCopyInto objCopy ⟨inp, out⟩).out.Status =
      (ShortLinkStatus.DeepCopyInto ⟨inp.Status, out.Status⟩).out ∧
    (ShortLink.DeepCopyInto objCopy ⟨inp, out⟩).out.ObjectMeta =
      objCopy inp.ObjectMeta inp.ObjectMeta ∧
    (∀ prior, (ShortLink.DeepCopyInto objCopy ⟨inp, prior⟩).out =
      (ShortLink.DeepCopyInto objCopy ⟨inp, out⟩).out) ∧
    (ShortLink.DeepCopyInto objCopy ⟨inp, out⟩).inp = inp ∧
    ShortLink.DeepCopy objCopy (some inp) =
      .ok (some (ShortLink.DeepCopyInto objCopy ⟨inp, out⟩).out) ∧
    (objCopy inp.ObjectMeta inp.ObjectMeta = inp.ObjectMeta →
      ShortLink.DeepCopy objCopy (some inp) = .ok (some inp)) := by
  refine ⟨rfl, rfl, rfl, rfl, rfl, rfl, fun _ => rfl, rfl, rfl, ?_⟩
  intro h
  rw [ShortLink_DeepCopy_some]
  show Except.ok (some (ShortLink.DeepCopyInto objCopy ⟨inp, default⟩).out) = _
  rw [ShortLink_DeepCopyInto_eq]
  simp only [h]

/-- Witness of C7: the list of two items copied over a list that held one item. -/
theorem ShortLinkList_DeepCopyInto_copies_witness :
    ∃ m, ShortLinkList.DeepCopyInto (fun a _ => a) (fun a _ => a)
        ⟨sampleShortLinkList, ⟨"", "", some [sampleShortLink]⟩⟩ = .ok m ∧
      ∃ outItems, m.out.Items = some outItems ∧ outItems.length = 2 := by
  obtain ⟨m, hm, -, -, -, hitems⟩ :=
    ShortLinkList_DeepCopyInto_copies (fun a _ => a) (fun a _ => a)
      sampleShortLinkList ⟨"", "", some [sampleShortLink]⟩
  obtain ⟨outItems, hout, hlen, -⟩ := hitems _ rfl
  exact ⟨m, hm, outItems, hout, hlen⟩

/-- Witness of C8: with a library copy that returns its receiver, `DeepCopy` of the sample
ShortLink returns an object equal to it. -/
theorem ShortLink_DeepCopyInto_copies_witness :
    ShortLink.DeepCopy (fun a _ => a) (some sampleShortLink) = .ok (some sampleShortLink) :=
  (ShortLink_DeepCopyInto_copies (fun a _ => a) sampleShortLink default).2.2.2.2.2.2.2.2.2 rfl

/-- C9. `DeepCopy` of ShortLink, ShortLinkList, ShortLinkSpec and ShortLinkStatus never panics
and returns `nil` exactly for a `nil` receiver; `DeepCopyObject` of ShortLink and ShortLinkList
never panics and returns the `nil` interface exactly for a `nil` receiver. -/
theorem DeepCopy_nil_iff_receiver_nil {TM OM LM SP ST : Type}
    [Inhabited TM] [Inhabited OM] [Inhabited LM] [Inhabited SP] [Inhabited ST]
    (objCopy : OM → OM → OM) (listCopy : LM → LM → LM) :
    (∀ p : Option (ShortLink TM OM SP ST),
      ∃ r, ShortLink.DeepCopy objCopy p = .ok r ∧ (r = none ↔ p = none)) ∧
    (∀ p : Option (ShortLinkList TM OM LM SP ST),
      ∃ r, ShortLinkList.DeepCopy objCopy listCopy p = .ok r ∧ (r = none ↔ p = none)) ∧
    (∀ p : Option SP, ∃ r, ShortLinkSpec.DeepCopy p = .ok r ∧ (r = none ↔ p = none)) ∧
    (∀ p : Option ST, ∃ r, ShortLinkStatus.DeepCopy p = .ok r ∧ (r = none ↔ p = none)) ∧
    (∀ p : Option (ShortLink TM OM SP ST),
      ∃ o : RuntimeObject TM OM LM SP ST,
        ShortLink.DeepCopyObject objCopy p = .ok o ∧ (o = .nil ↔ p = none)) ∧
    (∀ p : Option (ShortLinkList TM OM LM SP ST),
      ∃ o : RuntimeObject TM OM LM SP ST,
        ShortLinkList.DeepCopyObject objCopy listCopy p = .ok o ∧ (o = .nil ↔ p = none)) := by
  refine ⟨?_, ?_, ?_, ?_, ?_, ?_⟩
  · intro p
    cases p with
    | none => exact ⟨none, rfl, by simp⟩
    | some a => exact ⟨_, ShortLink_DeepCopy_some objCopy a, by simp⟩
  · intro p
    cases p with
    | none => exact ⟨none, rfl, by simp⟩
    | some a => exact ⟨_, ShortLinkList_DeepCopy_some objCopy listCopy a, by simp⟩
  · intro p
    cases p with
    | none => exact ⟨none, rfl, by simp⟩
    | some a => exact ⟨some a, rfl, by simp⟩
  · intro p
    cases p with
    | none => exact ⟨none, rfl, by simp⟩
    | some a => exact ⟨some a, rfl, by simp⟩
  · intro p
    cases p with
    | none => exact ⟨.nil, rfl, by simp⟩
    | some a => exact ⟨.ofShortLink (some (ShortLink.copyOf objCopy a)), rfl, by simp⟩
  · intro p
    cases p with
    | none => exact ⟨.nil, rfl, by simp⟩
    | some a =>
      refine ⟨.ofShortLinkList (some ⟨a.TypeMeta, listCopy a.ListMeta a.ListMeta,
        a.Items.map (fun items => items.map (ShortLink.copyOf objCopy))⟩), ?_, by simp⟩
      unfold ShortLinkList.DeepCopyObject
      rw [ShortLinkList_DeepCopy_some]
      rfl

end V1alpha1

namespace Main

/-! ## Shutdown -/

theorem step_quiet (p : Proc) (e : Event) (h : e.quiet = true) : step p e = .goesOn p := by
  cases e with
  | signal s =>
    simp only [Event.quiet, Bool.and_eq_true, Bool.not_eq_true', decide_eq_false_iff_not] at h
    simp [step, h.1, h.2]
  | serverShutdownReturns err => simp [Event.quiet] at h
  | tracerShutdownReturns err => simp [Event.quiet] at h
  | managerReturns err =>
    cases err with
    | none => rfl
    | some e => simp [Event.quiet] at h

theorem runFrom_quiet (p : Proc) (qs rest : List Event) (h : ∀ e ∈ qs, e.quiet = true) :
    runFrom p (qs ++ rest) = runFrom p rest := by
  induction qs with
  | nil => rfl
  | cons e es ih =>
    have he := h e (List.mem_cons_self _ _)
    show runFrom p (e :: (es ++ rest)) = _
    rw [runFrom, step_quiet p e he]
    exact ih (fun x hx => h x (List.mem_cons_of_mem _ hx))

/-- The state of the process inside `srv.Shutdown(ctx)`, after the signal `s`. -/
theorem runMain_first_signal (pre rest : List Event) (s : Signal)
    (hs : s = Signal.SIGINT ∨ s = Signal.SIGTERM) (hpre : ∀ e ∈ pre, e.quiet = true) :
    runMain (pre ++ Event.signal s :: rest) =
      runFrom ⟨.inServerShutdown, 1,
        [Effect.signalNotify notified, Effect.managerCancel] ++ handleShutdown.begin s⟩ rest := by
  unfold runMain
  rw [runFrom_quiet _ _ _ hpre]
  have hmem : s ∈ notified := by
    rcases hs with h | h <;> simp [h, notified]
  simp [runFrom, step, hmem, Proc.start]

theorem runFrom_in_server_shutdown (t : List Effect) (mid rest : List Event)
    (hmid : ∀ e ∈ mid, e.quiet = true) (e : Event) :
    runFrom ⟨.inServerShutdown, 1, t⟩ (mid ++ e :: rest) =
      match step ⟨.inServerShutdown, 1, t⟩ e with
      | .goesOn q => runFrom q rest
      | .ended r => r := by
  rw [runFrom_quiet _ _ _ hmid]
  rfl

theorem runFrom_in_tracer_shutdown (t : List Effect) (post rest : List Event)
    (hpost : ∀ e ∈ post, e.quiet = true) (e : Event) :
    runFrom ⟨.inTracerShutdown, 1, t⟩ (post ++ e :: rest) =
      match step ⟨.inTracerShutdown, 1, t⟩ e with
      | .goesOn q => runFrom q rest
      | .ended r => r := by
  rw [runFrom_quiet _ _ _ hpost]
  rfl

/-- C6, as stated, fails: a second SIGINT arrives while `srv.Shutdown` is at work; the process
ends with exit status 1 although `Shutdown` returns no error and `handleShutdown` logs
none. -/
theorem exit_one_without_shutdown_error :
    runMain [Event.signal Signal.SIGINT, Event.signal Signal.SIGINT,
        Event.serverShutdownReturns none, Event.tracerShutdownReturns none] =
      ⟨[Effect.signalNotify [Signal.SIGINT, Signal.SIGTERM], Effect.managerCancel,
          Effect.received Signal.SIGINT, Effect.logInfo "Shutting down server...",
          Effect.withTimeout 5000000000, Effect.serverShutdown 5000000000, Effect.exit 1],
        Outcome.exited 1⟩ := by
  decide

/-- C6, amended. On the first SIGINT or SIGTERM the context of the manager is cancelled and
`handleShutdown` calls `srv.Shutdown` once, under a context that expires after 5 seconds
(5000000000 ns); the process then waits for `Shutdown` alone, not for the manager.
`handleShutdown` returns normally exactly when `Shutdown` returns `nil`: `main` then shuts the
tracer down and the process ends with status 0. It calls `os.Exit(1)` exactly when `Shutdown`
returns an error. The process also ends with status 1 when a second SIGINT or SIGTERM arrives
before it has ended, and when `mgr.Start` returns an error; and a SIGHUP, SIGQUIT or SIGKILL
that arrives before the first SIGINT or SIGTERM ends it without any `Shutdown`. -/
theorem shutdown_on_first_signal (pre mid post rest : List Event) (s : Signal)
    (hs : s = Signal.SIGINT ∨ s = Signal.SIGTERM)
    (hpre : ∀ e ∈ pre, e.quiet = true) (hmid : ∀ e ∈ mid, e.quiet = true)
    (hpost : ∀ e ∈ post, e.quiet = true) :
    (runMain (pre ++ Event.signal s :: mid)).outcome = Outcome.running ∧
    (runMain (pre ++ Event.signal s :: mid)).trace.filter
        (fun e => match e with | .serverShutdown _ => true | _ => false) =
      [Effect.serverShutdown 5000000000] ∧
    (runMain (pre ++ Event.signal s :: mid)).trace.filter
        (fun e => match e with | .withTimeout _ => true | _ => false) =
      [Effect.withTimeout 5000000000] ∧
    Effect.managerCancel ∈ (runMain (pre ++ Event.signal s :: mid)).trace ∧
    ((handleShutdown.finish none).2 = none ∧
      ∀ err, (handleShutdown.finish (some err)).2 = some 1) ∧
    (∀ err, (runMain (pre ++ Event.signal s ::
        (mid ++ Event.serverShutdownReturns (some err) :: rest))).outcome = Outcome.exited 1) ∧
    (∀ terr, (runMain (pre ++ Event.signal s :: (mid ++ Event.serverShutdownReturns none ::
        (post ++ Event.tracerShutdownReturns terr :: rest)))).outcome = Outcome.exited 0) ∧
    (∀ s2, s2 = Signal.SIGINT ∨ s2 = Signal.SIGTERM →
      (runMain (pre ++ Event.signal s :: (mid ++ Event.signal s2 :: rest))).outcome =
        Outcome.exited 1) ∧
    (∀ s2, s2 = Signal.SIGINT ∨ s2 = Signal.SIGTERM →
      (runMain (pre ++ Event.signal s :: (mid ++ Event.serverShutdownReturns none ::
        (post ++ Event.signal s2 :: rest)))).outcome = Outcome.exited 1) ∧
    (∀ err, (runMain (pre ++ Event.managerReturns (some err) :: rest)).outcome =
        Outcome.exited 1 ∧
      (runMain (pre ++ Event.signal s :: (mid ++ Event.managerReturns (some err) :: rest))).outcome =
        Outcome.exited 1) ∧
    (∀ x, x = Signal.SIGHUP ∨ x = Signal.SIGQUIT ∨ x = Signal.SIGKILL →
      runMain (pre ++ Event.signal x :: rest) =
        ⟨[Effect.signalNotify notified], Outcome.killed x⟩) := by
  have h5 : 5 * Second = 5000000000 := by decide
  have hfirst := fun r => runMain_first_signal pre r s hs hpre
  have hquiet : runMain (pre ++ Event.signal s :: mid) =
      ⟨[Effect.signalNotify notified, Effect.managerCancel] ++ handleShutdown.begin s,
        Outcome.running⟩ := by
    rw [hfirst]
    have := runFrom_quiet ⟨.inServerShutdown, 1,
      [Effect.signalNotify notified, Effect.managerCancel] ++ handleShutdown.begin s⟩ mid [] hmid
    rw [List.append_nil] at this
    rw [this]
    rfl
  have hnot : ∀ s2, s2 = Signal.SIGINT ∨ s2 = Signal.SIGTERM → s2 ∈ notified := by
    intro s2 h2
    rcases h2 with h | h <;> simp [h, notified]
  refine ⟨?_, ?_, ?_, ?_, ⟨rfl, fun _ => rfl⟩, ?_, ?_, ?_, ?_, ?_, ?_⟩
  · rw [hquiet]
  · rw [hquiet]
    simp [handleShutdown.begin, h5]
  · rw [hquiet]
    simp [handleShutdown.begin, h5]
  · rw [hquiet]
    simp
  · intro err
    rw [hfirst, runFrom_in_server_shutdown _ _ _ hmid]
    rfl
  · intro terr
    rw [hfirst, runFrom_in_server_shutdown _ _ _ hmid]
    show (runFrom ⟨.inTracerShutdown, 1, _⟩ (post ++ _ :: rest)).outcome = _
    rw [runFrom_in_tracer_shutdown _ _ _ hpost]
    cases terr <;> rfl
  · intro s2 h2
    rw [hfirst, runFrom_in_server_shutdown _ _ _ hmid]
    simp [step, hnot s2 h2]
  · intro s2 h2
    rw [hfirst, runFrom_in_server_shutdown _ _ _ hmid]
    show (runFrom ⟨.inTracerShutdown, 1, _⟩ (post ++ _ :: rest)).outcome = _
    rw [runFrom_in_tracer_shutdown _ _ _ hpost]
    simp [step, hnot s2 h2]
  · intro err
    constructor
    · unfold runMain
      rw [runFrom_quiet _ _ _ hpre]
      rfl
    · rw [hfirst, runFrom_in_server_shutdown _ _ _ hmid]
      rfl
  · intro x hx
    unfold runMain
    rw [runFrom_quiet _ _ _ hpre]
    rcases hx with h | h | h <;> subst h <;> rfl

/-- Witness of C6, amended: a SIGTERM after a SIGUSR1, the manager returning `nil` while
`Shutdown` is at work, and `Shutdown` returning `nil`. -/
theorem shutdown_on_first_signal_witness :
    (runMain [Event.signal Signal.SIGUSR1, Event.signal Signal.SIGTERM,
      Event.managerReturns none, Event.serverShutdownReturns none,
      Event.tracerShutdownReturns none]).outcome = Outcome.exited 0 :=
  (shutdown_on_first_signal [Event.signal Signal.SIGUSR1] [Event.managerReturns none] [] []
    Signal.SIGTERM (Or.inr rfl) (by decide) (by decide) (by decide)).2.2.2.2.2.2.1 none

/-! ## Readiness -/

theorem setupProbes_NewManager (probeAddr : String) :
    setupProbes (NewManager probeAddr) =
      .ok ⟨probeAddr, false, [("healthz", healthz.Ping)], [("readyz", healthz.Ping)]⟩ := rfl

theorem startProbes_eq (probeAddr : String) :
    startProbes probeAddr =
      .ok ⟨probeAddr, true, [("healthz", healthz.Ping)], [("readyz", healthz.Ping)]⟩ := rfl

/-- C2, as stated, fails: with the default probe address `:8081`, once `main` has registered
the probes and started the manager, `/readyz` reports ready in a state in which the
cold-start rebuild has not completed. -/
theorem readyz_ready_before_rebuild :
    ∃ mgr, startProbes ":8081" = .ok mgr ∧
      mgr.readyz ⟨false⟩ ⟨"/readyz"⟩ = some 200 ∧
      mgr.reportsReady ⟨false⟩ ⟨"/readyz"⟩ = true :=
  ⟨_, startProbes_eq ":8081", by decide, by decide⟩

/-- C2, amended. For every probe address, `main` registers under the name `readyz` the check
`healthz.Ping` alone. Before the manager is started `/readyz` gives no answer. Once the
manager is started, `/readyz` gives no answer when the probe address is empty or `0`, and
else answers 200, ready, in every state of the process and for every request, whether the
cold-start rebuild has completed or not. -/
theorem readyz_ready_once_started (probeAddr : String) :
    ∃ registered running,
      setupProbes (NewManager probeAddr) = .ok registered ∧
      registered.readyzChecks = [("readyz", healthz.Ping)] ∧
      (∀ st req, registered.readyz st req = none) ∧
      startProbes probeAddr = .ok running ∧
      running.readyzChecks = [("readyz", healthz.Ping)] ∧
      (∀ st req, running.readyz st req =
        if probeAddr = "" ∨ probeAddr = "0" then none else some 200) ∧
      (∀ st req, running.reportsReady st req =
        !(decide (probeAddr = "") || decide (probeAddr = "0"))) := by
  refine ⟨_, _, setupProbes_NewManager probeAddr, rfl, fun _ _ => rfl,
    startProbes_eq probeAddr, rfl, ?_, ?_⟩
  · intro st req
    by_cases h1 : probeAddr = ""
    · simp [Manager.readyz, Manager.servesProbes, h1]
    · by_cases h2 : probeAddr = "0"
      · simp [Manager.readyz, Manager.servesProbes, h2]
      · simp [Manager.readyz, Manager.servesProbes, h1, h2, probeStatus, healthz.Ping]
  · intro st req
    by_cases h1 : probeAddr = ""
    · simp [Manager.reportsReady, Manager.readyz, Manager.servesProbes, h1]
    · by_cases h2 : probeAddr = "0"
      · simp [Manager.reportsReady, Manager.readyz, Manager.servesProbes, h2]
      · simp [Manager.reportsReady, Manager.readyz, Manager.servesProbes, h1, h2, probeStatus,
          healthz.Ping]

end Main

namespace Core

/-! ## Routing Table and Reconciler of the specification -/

theorem RoutingTable_Put_accepted (tbl : RoutingTable) (code target : String) (version : Nat)
    (h : ∀ e, tbl code = some e → e.version ≤ version) :
    tbl.Put code target version = fun c => if c = code then some ⟨target, version⟩ else tbl c := by
  unfold RoutingTable.Put
  cases hs : tbl code with
  | none => rfl
  | some stored =>
    have := h stored hs
    simp [Nat.not_lt.mpr this]

theorem RoutingTable_Put_rejected (tbl : RoutingTable) (code target : String) (version : Nat)
    (stored : RouteEntry) (hs : tbl code = some stored) (h : version < stored.version) :
    tbl.Put code target version = tbl := by
  unfold RoutingTable.Put
  simp [hs, h]

/-- C4, as stated, fails: with `V1 = 3 < V2 = 5`, on a table that holds the code at version 9,
`Put(code, t2, 5)` followed by `Put(code, t1, 3)` leaves the entry at version 9, not at
version `V2` with target `t2`. -/
theorem put_put_not_at_V2 :
    (3 : Nat) < 5 ∧
    (((RoutingTable.empty.Put "go" "t3" 9).Put "go" "t2" 5).Put "go" "t1" 3) "go" =
      some ⟨"t3", 9⟩ ∧
    (((RoutingTable.empty.Put "go" "t3" 9).Put "go" "t2" 5).Put "go" "t1" 3) "go" ≠
      some ⟨"t2", 5⟩ := by
  decide

/-- C4, amended. For every code, targets and versions `V1 < V2`, and every table whose entry
for the code, if any, has a version of at most `V2`: `Put(code, t2, V2)` followed by
`Put(code, t1, V1)` leaves the entry for the code at version `V2` with target `t2`. From
every table, the second Put changes nothing; and a Put with an older version than the stored
entry is rejected and changes nothing. -/
theorem put_older_after_newer_no_regression (tbl : RoutingTable) (code t1 t2 : String)
    (V1 V2 : Nat) (hlt : V1 < V2) :
    ((∀ e, tbl code = some e → e.version ≤ V2) →
      ((tbl.Put code t2 V2).Put code t1 V1) code = some ⟨t2, V2⟩ ∧
      ((tbl.Put code t2 V2).Put code t1 V1).Lookup code = (t2, true)) ∧
    (tbl.Put code t2 V2).Put code t1 V1 = tbl.Put code t2 V2 ∧
    (∀ (stored : RouteEntry) (t : String) (v : Nat),
      tbl code = some stored → v < stored.version → tbl.Put code t v = tbl) := by
  have hsecond : (tbl.Put code t2 V2).Put code t1 V1 = tbl.Put code t2 V2 := by
    cases hs : tbl code with
    | none =>
      have h1 := RoutingTable_Put_accepted tbl code t2 V2 (by simp [hs])
      exact RoutingTable_Put_rejected _ code t1 V1 ⟨t2, V2⟩ (by simp [h1]) hlt
    | some stored =>
      by_cases hv : V2 < stored.version
      · rw [RoutingTable_Put_rejected tbl code t2 V2 stored hs hv]
        exact RoutingTable_Put_rejected tbl code t1 V1 stored hs (Nat.lt_trans hlt hv)
      · have h1 := RoutingTable_Put_accepted tbl code t2 V2
          (by intro e he; rw [hs] at he; cases he; exact Nat.not_lt.mp hv)
        exact RoutingTable_Put_rejected _ code t1 V1 ⟨t2, V2⟩ (by simp [h1]) hlt
  refine ⟨?_, hsecond, ?_⟩
  · intro hacc
    rw [hsecond, RoutingTable_Put_accepted tbl code t2 V2 hacc]
    simp [RoutingTable.Lookup]
  · intro stored t v hs hv
    exact RoutingTable_Put_rejected tbl code t v stored hs hv

/-- Witness of C4, amended: versions 1 and 2 over a table that holds the code at version 1. -/
theorem put_older_after_newer_no_regression_witness :
    (1 : Nat) < 2 ∧
    (((RoutingTable.empty.Put "go" "https://a.example" 1).Put "go" "https://b.example" 2).Put
      "go" "https://a.example" 1) "go" = some ⟨"https://b.example", 2⟩ :=
  ⟨by decide,
    ((put_older_after_newer_no_regression (RoutingTable.empty.Put "go" "https://a.example" 1)
      "go" "https://a.example" "https://b.example" 1 2 (by decide)).1
      (by intro e he
          have h2 : (RoutingTable.empty.Put "go" "https://a.example" 1) "go" =
              some ⟨"https://a.example", 1⟩ := by decide
          rw [h2] at he
          cases he
          decide)).1⟩

/-- C5. For every validation, table and ShortLink whose Spec fails the validation, the
reconcile pass leaves no RouteEntry for the code of the ShortLink, whatever entry the table
held, sets `condition = Invalid` and records the reason; `Lookup(code)` afterwards reports
not-found and the Redirect Resolver answers not-found, status 404. -/
theorem reconcile_invalid_fails_closed (validate : Validation) (tbl : RoutingTable)
    (obj : ShortLink) (reason : String) (hinvalid : validate obj.spec = some reason) :
    (reconcile validate tbl obj).1 obj.spec.code = none ∧
    (reconcile validate tbl obj).2.status.condition = .Invalid ∧
    (reconcile validate tbl obj).2.status.reason = reason ∧
    (reconcile validate tbl obj).1.Lookup obj.spec.code = ("", false) ∧
    resolve (reconcile validate tbl obj).1 obj.spec.code = .notFound ∧
    (resolve (reconcile validate tbl obj).1 obj.spec.code).statusCode = 404 := by
  have hrec : reconcile validate tbl obj =
      (tbl.Remove obj.spec.code,
        { obj with status := { obj.status with condition := .Invalid, reason := reason } }) := by
    unfold reconcile
    rw [hinvalid]
  rw [hrec]
  refine ⟨?_, rfl, rfl, ?_, ?_, ?_⟩ <;>
    simp [RoutingTable.Remove, RoutingTable.Lookup, resolve, Response.statusCode]

/-- Witness of C5: the target `not a url` over a table that still holds a stale entry. -/
theorem reconcile_invalid_fails_closed_witness :
    allowListValidation ["http", "https"] ⟨"bad", "not a url"⟩ =
      some "target is not an absolute URL with an allowed scheme" ∧
    resolve (reconcile (allowListValidation ["http", "https"])
      (RoutingTable.empty.Put "bad" "https://stale.example" 4)
      ⟨5, ⟨"bad", "not a url"⟩, ⟨"https://stale.example", 4, .Ready, ""⟩⟩).1 "bad" =
      .notFound :=
  ⟨by decide,
    (reconcile_invalid_fails_closed (allowListValidation ["http", "https"])
      (RoutingTable.empty.Put "bad" "https://stale.example" 4)
      ⟨5, ⟨"bad", "not a url"⟩, ⟨"https://stale.example", 4, .Ready, ""⟩⟩
      "target is not an absolute URL with an allowed scheme" (by decide)).2.2.2.2.1⟩

end Core
